import Mathlib

/-! Shallow embedding of the rprint visual template designer core: the
designer store (element list, selection, bounded undo/redo history,
z-order operations, distribution geometry) from
`src/features/designer/stores` and the PDF/HTML compiler pipeline from
`src/features/designer/compilers/pdfCompiler.ts`.  JS numbers are
modelled as `ℚ`, JS strings as Lean `String` (or `List Char` inside the
escaping lexer), and the `uuidv4()` id source as an explicit fresh-id
parameter.  Literal brace characters inside string literals are written
with `\x7b` / `\x7d` escapes. -/

namespace RPrint

/-- Style bag of a canvas element: the fields the PDF compiler reads out
of the open `style: Record<string, unknown>` dictionary.  `unknown`
values are modelled at the type each reader coerces them to; absent
fields are `none`. -/
structure ElementStyle where
  fontFamily : Option String := none
  fontSizePt : Option ℚ := none
  bold : Bool := false
  italic : Bool := false
  underline : Bool := false
  color : Option String := none
  align : Option String := none
  lineHeight : Option ℚ := none
  strokeMm : Option ℚ := none
  strokeColor : Option String := none
  fillColor : Option String := none
  radiusMm : Option ℚ := none
  objectFit : Option String := none
deriving Repr, DecidableEq

/-- `CanvasElement` from `src/features/designer/types/index.ts`.  The
`type` union is modelled as `String` (the compiler's default switch
branch handles values outside the union, which TS types do not rule out
at runtime). -/
structure CanvasElement where
  id : String
  type : String
  x : ℚ
  y : ℚ
  width : ℚ
  height : ℚ
  rotation : ℚ
  z : ℚ
  locked : Bool := false
  hidden : Bool := false
  content : String := ""
  style : ElementStyle := {}
  dataBinding : Option String := none
deriving Repr, DecidableEq

/-- `HistoryState`: stacks of full element-array snapshots. -/
structure HistoryState where
  past : List (List CanvasElement)
  future : List (List CanvasElement)
deriving Repr, DecidableEq

/-- The designer store state (`DesignerState` fields touched by the
element/selection/history actions; the canvas `config` is never read or
written by those actions and is omitted). -/
structure DesignerState where
  elements : List CanvasElement
  selectedIds : List String
  history : HistoryState
  isDirty : Bool
deriving Repr, DecidableEq

/-- `saveToHistory`: keep the last 49 past snapshots (`slice(-49)`),
push the current elements, clear the future stack. -/
def saveToHistory (s : DesignerState) : DesignerState :=
  { s with history :=
      { past := s.history.past.drop (s.history.past.length - 49) ++ [s.elements],
        future := [] } }

/-- `addElement`: build the new element by spreading the argument and
overriding `id` (a fresh uuid, modelled as the `newId` parameter) and
`z := elements.length`; append it, select it, mark dirty, then call
`saveToHistory` (the source calls it after the mutating `set`), and
return the new id. -/
def addElement (newId : String) (element : CanvasElement) (s : DesignerState) :
    DesignerState × String :=
  let newElement := { element with id := newId, z := (s.elements.length : ℚ) }
  let s1 := { s with
    elements := s.elements ++ [newElement],
    selectedIds := [newId],
    isDirty := true }
  (saveToHistory s1, newId)

/-- `removeElement`: save history first, then filter the element and the
selection. -/
def removeElement (id : String) (s : DesignerState) : DesignerState :=
  let s1 := saveToHistory s
  { s1 with
    elements := s1.elements.filter (fun el => el.id ≠ id),
    selectedIds := s1.selectedIds.filter (fun sid => sid ≠ id),
    isDirty := true }

/-- `removeElements`: save history first, then filter by the id set. -/
def removeElements (ids : List String) (s : DesignerState) : DesignerState :=
  let s1 := saveToHistory s
  { s1 with
    elements := s1.elements.filter (fun el => ¬ ids.contains el.id),
    selectedIds := s1.selectedIds.filter (fun sid => ¬ ids.contains sid),
    isDirty := true }

/-- `duplicateElements`: clone each matching element with a fresh uuid
(modelled by the `freshIds` list), offset position by +10 on both axes,
and `z := elements.length + (number of new ids so far) - 1`; history is
saved before the mutation.  Returns the new ids (also the new
selection). -/
def duplicateElements (freshIds : List String) (ids : List String)
    (s : DesignerState) : DesignerState × List String :=
  let toDuplicate := s.elements.filter (fun el => ids.contains el.id)
  let newElements := (toDuplicate.zip (freshIds.take toDuplicate.length)).enum.map
    (fun p => { p.2.1 with
      id := p.2.2,
      x := p.2.1.x + 10,
      y := p.2.1.y + 10,
      z := (s.elements.length : ℚ) + (p.1 : ℚ) })
  let newIds := freshIds.take toDuplicate.length
  let s1 := saveToHistory s
  ({ s1 with
      elements := s1.elements ++ newElements,
      selectedIds := newIds,
      isDirty := true },
   newIds)

/-- Maximum of a list of rationals, `none` on the empty list (the source
uses `Math.max(...)`, which is `-Infinity` on an empty spread and never
matched against an element in that case). -/
def listMax : List ℚ → Option ℚ
  | [] => none
  | q :: rest =>
    match listMax rest with
    | none => some q
    | some m => some (max q m)

/-- Minimum of a list of rationals, `none` on the empty list. -/
def listMin : List ℚ → Option ℚ
  | [] => none
  | q :: rest =>
    match listMin rest with
    | none => some q
    | some m => some (min q m)

/-- Insertion step of the ascending sort by a rational key: the new
element goes after every element whose key is `≤` its own. -/
def insertAsc (key : CanvasElement → ℚ) (e : CanvasElement) :
    List CanvasElement → List CanvasElement
  | [] => [e]
  | f :: rest =>
    if key f ≤ key e then f :: insertAsc key e rest
    else e :: f :: rest

/-- Ascending insertion sort by a rational key; models the JS
`Array.prototype.sort` with comparator `(a, b) => key(a) - key(b)`. -/
def sortAsc (key : CanvasElement → ℚ) : List CanvasElement → List CanvasElement
  | [] => []
  | e :: rest => insertAsc key e (sortAsc key rest)

/-- `bringToFront`: set the element's z to `max + 1` over all current z
values; always marks dirty.  No history entry is pushed. -/
def bringToFront (id : String) (s : DesignerState) : DesignerState :=
  match listMax (s.elements.map (fun el => el.z)) with
  | none => { s with isDirty := true }
  | some maxZ =>
    { s with
      elements := s.elements.map
        (fun el => if el.id = id then { el with z := maxZ + 1 } else el),
      isDirty := true }

/-- `sendToBack`: set the element's z to `min - 1`. -/
def sendToBack (id : String) (s : DesignerState) : DesignerState :=
  match listMin (s.elements.map (fun el => el.z)) with
  | none => { s with isDirty := true }
  | some minZ =>
    { s with
      elements := s.elements.map
        (fun el => if el.id = id then { el with z := minZ - 1 } else el),
      isDirty := true }

/-- `bringForward`: find the nearest strictly-greater z (sort ascending,
take the head) and set the element's z to that value plus `0.5`; no-op
when the id is absent or no element is above.  No history entry is
pushed. -/
def bringForward (id : String) (s : DesignerState) : DesignerState :=
  match s.elements.find? (fun el => el.id = id) with
  | none => s
  | some element =>
    match (sortAsc (fun el => el.z)
        (s.elements.filter (fun el => element.z < el.z))).head? with
    | none => s
    | some nxt =>
      { s with
        elements := s.elements.map
          (fun el => if el.id = id then { el with z := nxt.z + 1/2 } else el),
        isDirty := true }

/-- `sendBackward`: find the nearest strictly-smaller z (the source sorts
with comparator `(a, b) => b.z - a.z` and takes the head, modelled as an
ascending sort on the negated key) and set the element's z to that value
minus `0.5`. -/
def sendBackward (id : String) (s : DesignerState) : DesignerState :=
  match s.elements.find? (fun el => el.id = id) with
  | none => s
  | some element =>
    match (sortAsc (fun el => -el.z)
        (s.elements.filter (fun el => el.z < element.z))).head? with
    | none => s
    | some prev =>
      { s with
        elements := s.elements.map
          (fun el => if el.id = id then { el with z := prev.z - 1/2 } else el),
        isDirty := true }

/-- `undo`: pop the last past snapshot into `elements`, pushing the
current elements onto the future stack; no-op on empty past. -/
def undo (s : DesignerState) : DesignerState :=
  match s.history.past.getLast? with
  | none => s
  | some previous =>
    { s with
      elements := previous,
      history :=
        { past := s.history.past.dropLast,
          future := s.elements :: s.history.future },
      selectedIds := [],
      isDirty := true }

/-- `redo`: shift the first future snapshot into `elements`, pushing the
current elements onto the past stack; no-op on empty future. -/
def redo (s : DesignerState) : DesignerState :=
  match s.history.future with
  | [] => s
  | next :: newFuture =>
    { s with
      elements := next,
      history :=
        { past := s.history.past ++ [s.elements],
          future := newFuture },
      selectedIds := [],
      isDirty := true }

/-! The Handlebars-preserving HTML escaping (`escapeHtml` in
`pdfCompiler.ts`): a left-to-right scan for the regex
`(\x7b\x7b\x7b?[^\x7d]+\x7d\x7d\x7d?)`; matched spans are kept verbatim,
unmatched spans are escaped.  Since `\x7b` is itself matched by
`[^\x7d]`, the optional third opening brace is absorbed into the run, so
a match is: two opening braces, a non-empty run of non-closing-brace
characters, two closing braces, and optionally (greedily) one more
closing brace. -/

/-- Tag of a scanned span: literal text or a Handlebars expression. -/
inductive PartKind
  | text
  | hbs
deriving Repr, DecidableEq

/-- One span produced by the scan (`{ type, value }` in the source). -/
structure TemplatePart where
  kind : PartKind
  value : List Char
deriving Repr, DecidableEq

/-- One match attempt of the Handlebars pattern at the head of the
input: on success returns the matched span and the remaining input. -/
def matchHbs (cs : List Char) : Option (List Char × List Char) :=
  match cs with
  | c1 :: c2 :: rest =>
    if c1 = '\x7b' ∧ c2 = '\x7b' then
      if (rest.takeWhile (fun c => c ≠ '\x7d')).isEmpty then none
      else
        match rest.dropWhile (fun c => c ≠ '\x7d') with
        | d1 :: d2 :: d3 :: rest3 =>
          if d1 = '\x7d' ∧ d2 = '\x7d' then
            if d3 = '\x7d' then
              some (c1 :: c2 :: rest.takeWhile (fun c => c ≠ '\x7d')
                      ++ [d1, d2, d3], rest3)
            else
              some (c1 :: c2 :: rest.takeWhile (fun c => c ≠ '\x7d')
                      ++ [d1, d2], d3 :: rest3)
          else none
        | [d1, d2] =>
          if d1 = '\x7d' ∧ d2 = '\x7d' then
            some (c1 :: c2 :: rest.takeWhile (fun c => c ≠ '\x7d')
                    ++ [d1, d2], [])
          else none
        | _ => none
    else none
  | _ => none

/-- Append one literal character in front of a part list, merging it
into a leading literal part when there is one (the source accumulates
maximal literal slices between matches). -/
def consLit (c : Char) : List TemplatePart → List TemplatePart
  | ⟨PartKind.text, v⟩ :: rest => ⟨PartKind.text, c :: v⟩ :: rest
  | parts => ⟨PartKind.text, [c]⟩ :: parts

/-- The scan loop (`while ((match = hbsPattern.exec(text)) !== null)`),
written with a structural fuel so that it computes by kernel reduction;
`fuel ≥ cs.length` always suffices because every step consumes at least
one character. -/
def scanAux : Nat → List Char → List TemplatePart
  | 0, _ => []
  | fuel + 1, cs =>
    match matchHbs cs with
    | some m => ⟨PartKind.hbs, m.1⟩ :: scanAux fuel m.2
    | none =>
      match cs with
      | [] => []
      | c :: rest => consLit c (scanAux fuel rest)

/-- Scan a string into its literal and expression spans. -/
def scanParts (cs : List Char) : List TemplatePart :=
  scanAux cs.length cs

/-- Global single-character replacement (`String.prototype.replace` with
a one-character global pattern). -/
def repl (c : Char) (rep : List Char) : List Char → List Char
  | [] => []
  | x :: xs => (if x = c then rep else [x]) ++ repl c rep xs

/-- Escaping of one literal span: `& < > "` replaced in that order (the
ampersand first, so entities introduced later keep their own `&`). -/
def escapeLiteral (cs : List Char) : List Char :=
  repl '\x22' "&quot;".data
    (repl '>' "&gt;".data
      (repl '<' "&lt;".data
        (repl '&' "&amp;".data cs)))

/-- The per-character escaping map the chained replacements amount to. -/
def escChar (c : Char) : List Char :=
  if c = '&' then "&amp;".data
  else if c = '<' then "&lt;".data
  else if c = '>' then "&gt;".data
  else if c = '\x22' then "&quot;".data
  else [c]

/-- Rendering of one span: expressions verbatim, literals escaped. -/
def renderPart (p : TemplatePart) : List Char :=
  match p.kind with
  | PartKind.hbs => p.value
  | PartKind.text => escapeLiteral p.value

/-- `escapeHtml`: scan, transform each span, and concatenate. -/
def escapeHtml (text : String) : String :=
  String.mk (((scanParts text.data).map renderPart).flatten)

/-! The PDF/HTML compiler (`compileToPdfHtml` and its helpers). -/

/-- A compile warning (`{ code, message, elementId? }`). -/
structure CompileWarning where
  code : String
  message : String
  elementId : Option String := none
deriving Repr, DecidableEq

/-- The print hint attached to a compile result. -/
structure PrintHint where
  paperSize : Option String := none
deriving Repr, DecidableEq

/-- The compile result (`{ kind, handlebars, printHint?, warnings }`). -/
structure CompileResult where
  kind : String
  handlebars : String
  printHint : Option PrintHint := none
  warnings : List CompileWarning
deriving Repr, DecidableEq

/-- `CanvasConfig`; the compiler reads only `width` and `height`. -/
structure CanvasConfig where
  kind : String
  width : ℚ
  height : ℚ
  unit : String
  scale : ℚ
  gridSize : ℚ
  showGrid : Bool
  showRulers : Bool
  snapEnabled : Bool
  snapToGrid : Bool
  snapToGuides : Bool
  snapToElements : Bool
deriving Repr, DecidableEq

/-- Two-decimal rendering of a JS number (`toFixed(2)`); no claim
depends on the digits produced. -/
def toFixed2 (q : ℚ) : String :=
  (if Int.floor (q * 100 + 1/2) < 0 then "-" else "")
    ++ toString ((Int.floor (q * 100 + 1/2)).natAbs / 100) ++ "."
    ++ (if (Int.floor (q * 100 + 1/2)).natAbs % 100 < 10 then "0" else "")
    ++ toString ((Int.floor (q * 100 + 1/2)).natAbs % 100)

/-- Default rendering of a JS number inside a template literal; no claim
depends on the digits produced. -/
def qToString (q : ℚ) : String := toString q

/-- The `baseStyles` array built at the top of `compileElement`:
position, geometry, optional rotation transform, and z-index. -/
def baseStylesOf (element : CanvasElement) : List String :=
  (["position:absolute",
    "left:" ++ toFixed2 element.x ++ "mm",
    "top:" ++ toFixed2 element.y ++ "mm",
    "width:" ++ toFixed2 element.width ++ "mm",
    "height:" ++ toFixed2 element.height ++ "mm",
    "box-sizing:border-box"]
   ++ (if element.rotation ≠ 0 then
        ["transform:rotate(" ++ qToString element.rotation ++ "deg)",
         "transform-origin:center center"]
       else []))
   ++ ["z-index:" ++ qToString element.z]

/-- `wrapWithCondition`: wrap the fragment in a Handlebars conditional
referencing `dataBinding` verbatim; JS truthiness makes an absent or
empty binding a no-wrap. -/
def wrapWithCondition (element : CanvasElement) (html : String) : String :=
  match element.dataBinding with
  | some cond =>
    if cond ≠ "" then
      "\x7b\x7b#if " ++ cond ++ "\x7d\x7d\n" ++ html ++ "\n\x7b\x7b/if\x7d\x7d"
    else html
  | none => html

/-- `compileTextElement`: font/colour/alignment styles (JS truthiness on
each style field: absent, empty-string and zero values fall back), then
the escaped content. -/
def compileTextElement (element : CanvasElement) (baseStyles : List String) :
    String :=
  "  <div data-id=\"" ++ element.id ++ "\" style=\""
    ++ String.intercalate ";"
      (baseStyles
        ++ (match element.style.fontFamily with
            | some f => if f ≠ "" then ["font-family:" ++ f] else []
            | none => [])
        ++ (match element.style.fontSizePt with
            | some v => if v ≠ 0 then ["font-size:" ++ qToString v ++ "pt"]
                        else ["font-size:12pt"]
            | none => ["font-size:12pt"])
        ++ (if element.style.bold then ["font-weight:bold"] else [])
        ++ (if element.style.italic then ["font-style:italic"] else [])
        ++ (if element.style.underline then ["text-decoration:underline"] else [])
        ++ (match element.style.color with
            | some cv => if cv ≠ "" then ["color:" ++ cv] else []
            | none => [])
        ++ (match element.style.align with
            | some av => if av ≠ "" then ["text-align:" ++ av] else []
            | none => [])
        ++ (match element.style.lineHeight with
            | some lh => if lh ≠ 0 then ["line-height:" ++ qToString lh] else []
            | none => [])
        ++ ["overflow:hidden", "white-space:pre-wrap", "word-wrap:break-word"])
    ++ "\">" ++ escapeHtml element.content ++ "</div>"

/-- `compileRectElement`: stroke (defaulting to 0.3mm black), optional
fill and corner radius. -/
def compileRectElement (element : CanvasElement) (baseStyles : List String) :
    String :=
  "  <div data-id=\"" ++ element.id ++ "\" style=\""
    ++ String.intercalate ";"
      (baseStyles
        ++ ["border:"
              ++ qToString (match element.style.strokeMm with
                  | some v => if v ≠ 0 then v else 3/10
                  | none => 3/10)
              ++ "mm solid "
              ++ (match element.style.strokeColor with
                  | some cv => if cv ≠ "" then cv else "#000000"
                  | none => "#000000")]
        ++ (match element.style.fillColor with
            | some fc => if fc ≠ "" then ["background:" ++ fc] else []
            | none => [])
        ++ (match element.style.radiusMm with
            | some r => if r ≠ 0 then ["border-radius:" ++ qToString r ++ "mm"] else []
            | none => []))
    ++ "\"></div>"

/-- `compileLineElement`: a zero-height div with a top border. -/
def compileLineElement (element : CanvasElement) (baseStyles : List String) :
    String :=
  "  <div data-id=\"" ++ element.id ++ "\" style=\""
    ++ String.intercalate ";"
      (baseStyles
        ++ ["border-top:"
              ++ qToString (match element.style.strokeMm with
                  | some v => if v ≠ 0 then v else 3/10
                  | none => 3/10)
              ++ "mm solid "
              ++ (match element.style.strokeColor with
                  | some cv => if cv ≠ "" then cv else "#000000"
                  | none => "#000000"),
            "height:0"])
    ++ "\"></div>"

/-- `compileImageElement`: empty source yields a placeholder block plus
an `EMPTY_IMAGE_SRC` warning, otherwise an `img` reference. -/
def compileImageElement (element : CanvasElement) (baseStyles : List String) :
    String × List CompileWarning :=
  if element.content = "" then
    ("  <div data-id=\"" ++ element.id ++ "\" style=\""
       ++ String.intercalate ";"
         (baseStyles ++ ["background:#f0f0f0", "display:flex",
                         "align-items:center", "justify-content:center"])
       ++ "\">图片</div>",
     [{ code := "EMPTY_IMAGE_SRC", message := "Image element has no source",
        elementId := some element.id }])
  else
    ("  <img data-id=\"" ++ element.id ++ "\" src=\"" ++ escapeHtml element.content
       ++ "\" style=\"" ++ String.intercalate ";" baseStyles ++ ";object-fit:"
       ++ (match element.style.objectFit with
           | some v => if v ≠ "" then v else "contain"
           | none => "contain")
       ++ "\" />", [])

/-- `compileBarcodeElement`: always a placeholder plus a warning. -/
def compileBarcodeElement (element : CanvasElement) (baseStyles : List String) :
    String × List CompileWarning :=
  ("  <div data-id=\"" ++ element.id ++ "\" style=\""
     ++ String.intercalate ";"
       (baseStyles ++ ["display:flex", "align-items:center",
                       "justify-content:center", "background:#fafafa",
                       "border:1px dashed #ccc", "font-family:monospace",
                       "font-size:10pt"])
     ++ "\">||||| "
     ++ escapeHtml (if element.content = "" then "123456789" else element.content)
     ++ " |||||</div>",
   [{ code := "BARCODE_PLACEHOLDER",
      message := "Barcode element compiled as placeholder. Use JsBarcode for actual barcode rendering.",
      elementId := some element.id }])

/-- `compileQrcodeElement`: always a placeholder plus a warning. -/
def compileQrcodeElement (element : CanvasElement) (baseStyles : List String) :
    String × List CompileWarning :=
  ("  <div data-id=\"" ++ element.id ++ "\" style=\""
     ++ String.intercalate ";"
       (baseStyles ++ ["display:flex", "align-items:center",
                       "justify-content:center", "background:#fafafa",
                       "border:1px dashed #ccc", "font-size:10pt"])
     ++ "\">[ QR: "
     ++ escapeHtml (if element.content = "" then "https://example.com" else element.content)
     ++ " ]</div>",
   [{ code := "QRCODE_PLACEHOLDER",
      message := "QR code element compiled as placeholder. Use qrcode library for actual QR code rendering.",
      elementId := some element.id }])

/-- `compileHlineElement`: the fill character is the first character of
`content` (or `-` when content is empty), repeated
`Math.floor(width * 3)` times.  In the source template literal
`>$$\x7bline\x7d</div>`, the doubled dollar is a literal `$` followed by
the interpolation of `line`.  (`String.prototype.repeat` throws on a
negative count; the model truncates at zero, which agrees with the
source on every non-negative width.) -/
def compileHlineElement (element : CanvasElement) (baseStyles : List String) :
    String :=
  "  <div data-id=\"" ++ element.id ++ "\" style=\""
    ++ String.intercalate ";"
      (baseStyles ++ ["display:flex", "align-items:center",
                      "justify-content:center", "overflow:hidden",
                      "font-family:monospace", "letter-spacing:2px",
                      "color:#666"])
    ++ "\">$"
    ++ String.mk (List.replicate (Int.floor (element.width * 3)).toNat
         (element.content.data.head?.getD '-'))
    ++ "</div>"

/-- The element types the dispatch switch of `compileElement` handles. -/
def recognizedTypes : List String :=
  ["text", "rect", "line", "image", "barcode", "qrcode", "hline"]

/-- `compileElement`: build the base styles, dispatch on `type`
(`switch` modelled as an equality chain), wrapping each recognized
fragment with `wrapWithCondition`; the default branch emits a comment
and an `UNKNOWN_ELEMENT_TYPE` warning, unwrapped. -/
def compileElement (element : CanvasElement) : String × List CompileWarning :=
  if element.type = "text" then
    (wrapWithCondition element (compileTextElement element (baseStylesOf element)), [])
  else if element.type = "rect" then
    (wrapWithCondition element (compileRectElement element (baseStylesOf element)), [])
  else if element.type = "line" then
    (wrapWithCondition element (compileLineElement element (baseStylesOf element)), [])
  else if element.type = "image" then
    (wrapWithCondition element (compileImageElement element (baseStylesOf element)).1,
     (compileImageElement element (baseStylesOf element)).2)
  else if element.type = "barcode" then
    (wrapWithCondition element (compileBarcodeElement element (baseStylesOf element)).1,
     (compileBarcodeElement element (baseStylesOf element)).2)
  else if element.type = "qrcode" then
    (wrapWithCondition element (compileQrcodeElement element (baseStylesOf element)).1,
     (compileQrcodeElement element (baseStylesOf element)).2)
  else if element.type = "hline" then
    (wrapWithCondition element (compileHlineElement element (baseStylesOf element)), [])
  else
    ("<!-- Unknown element type: " ++ element.type ++ " -->",
     [{ code := "UNKNOWN_ELEMENT_TYPE",
        message := "Unknown element type: " ++ element.type,
        elementId := some element.id }])

/-- The same dispatch without the conditional wrap: the raw per-type
fragment of an element. -/
def compileElementBody (element : CanvasElement) : String × List CompileWarning :=
  if element.type = "text" then
    (compileTextElement element (baseStylesOf element), [])
  else if element.type = "rect" then
    (compileRectElement element (baseStylesOf element), [])
  else if element.type = "line" then
    (compileLineElement element (baseStylesOf element), [])
  else if element.type = "image" then
    compileImageElement element (baseStylesOf element)
  else if element.type = "barcode" then
    compileBarcodeElement element (baseStylesOf element)
  else if element.type = "qrcode" then
    compileQrcodeElement element (baseStylesOf element)
  else if element.type = "hline" then
    (compileHlineElement element (baseStylesOf element), [])
  else
    ("<!-- Unknown element type: " ++ element.type ++ " -->",
     [{ code := "UNKNOWN_ELEMENT_TYPE",
        message := "Unknown element type: " ++ element.type,
        elementId := some element.id }])

/-- The element list the compiler works through: hidden elements
filtered out, the rest sorted by z ascending. -/
def visibleSorted (elements : List CanvasElement) : List CanvasElement :=
  sortAsc (fun el => el.z) (elements.filter (fun el => !el.hidden))

/-- `compileToPdfHtml`: compile each visible element in z order, join
the fragments with newlines inside the page wrapper, and return the
result with the paper-size hint and the accumulated warnings. -/
def compileToPdfHtml (elements : List CanvasElement) (config : CanvasConfig) :
    CompileResult :=
  { kind := "pdf",
    handlebars :=
      "<div class=\"rprint-page\" style=\"position:relative;width:"
        ++ qToString config.width ++ "mm;height:" ++ qToString config.height
        ++ "mm;overflow:hidden;\">\n"
        ++ String.intercalate "\n"
            ((visibleSorted elements).map (fun el => (compileElement el).1))
        ++ "\n</div>",
    printHint :=
      some { paperSize :=
               some (qToString config.width ++ "mm "
                       ++ qToString config.height ++ "mm") },
    warnings :=
      ((visibleSorted elements).map (fun el => (compileElement el).2)).flatten }

/-! The distribution geometry (`distributeElements`). -/

/-- The two distribution directions. -/
inductive Direction
  | horizontal
  | vertical
deriving Repr, DecidableEq

/-- Position of an element along the chosen axis (`x` or `y`). -/
def axisPos (d : Direction) (el : CanvasElement) : ℚ :=
  match d with
  | Direction.horizontal => el.x
  | Direction.vertical => el.y

/-- Extent of an element along the chosen axis (`width` or `height`). -/
def axisExt (d : Direction) (el : CanvasElement) : ℚ :=
  match d with
  | Direction.horizontal => el.width
  | Direction.vertical => el.height

/-- A `Partial<CanvasElement>` patch as produced by the geometry
actions (only the position fields are ever patched there). -/
structure ElementPatch where
  x : Option ℚ := none
  y : Option ℚ := none
deriving Repr, DecidableEq

/-- The single-axis patch `{ x: v }` or `{ y: v }`. -/
def axisPatch (d : Direction) (v : ℚ) : ElementPatch :=
  match d with
  | Direction.horizontal => { x := some v }
  | Direction.vertical => { y := some v }

/-- Shallow merge of a patch into an element. -/
def applyPatch (el : CanvasElement) (p : ElementPatch) : CanvasElement :=
  { el with x := p.x.getD el.x, y := p.y.getD el.y }

/-- `new Map(updates.map(u => [u.id, u.changes]))` followed by
`updateMap.get(el.id)`: the last entry for a key wins. -/
def lookupPatch (updates : List (String × ElementPatch)) (id : String) :
    Option ElementPatch :=
  updates.foldl (fun acc u => if u.1 = id then some u.2 else acc) none

/-- `updateElements`: shallow-merge the changes into each matching
element; pushes no history entry itself. -/
def updateElements (updates : List (String × ElementPatch)) (s : DesignerState) :
    DesignerState :=
  { s with
    elements := s.elements.map (fun el =>
      match lookupPatch updates el.id with
      | some changes => applyPatch el changes
      | none => el),
    isDirty := true }

/-- The `selected` list of `distributeElements`: elements of the id
selection, sorted along the axis. -/
def selectionSorted (ids : List String) (d : Direction) (s : DesignerState) :
    List CanvasElement :=
  sortAsc (axisPos d) (s.elements.filter (fun el => ids.contains el.id))

/-- The gap of `distributeElements`:
`(totalSpace - totalSize) / (selected.length - 1)` with
`totalSpace = last.pos + last.extent - first.pos` and `totalSize` the
sum of the extents (a `reduce` with initial value 0).  On an empty
selection the source dereferences `selected[0]` and throws; the model
returns 0 there (unreachable under the claims). -/
def distGap (d : Direction) (sel : List CanvasElement) : ℚ :=
  match sel with
  | [] => 0
  | first :: rest =>
    ((axisPos d ((first :: rest).getLast (List.cons_ne_nil first rest))
        + axisExt d ((first :: rest).getLast (List.cons_ne_nil first rest))
        - axisPos d first)
      - List.foldl (fun sum el => sum + axisExt d el) 0 (first :: rest))
      / (((first :: rest).length : ℚ) - 1)

/-- The `selected.map` of `distributeElements` with its running
`currentPos`: assign the current position to each element in turn,
advancing by the element extent plus the gap. -/
def distAssign (d : Direction) (gap : ℚ) :
    ℚ → List CanvasElement → List (String × ElementPatch)
  | _, [] => []
  | pos, el :: rest =>
    (el.id, axisPatch d pos) :: distAssign d gap (pos + axisExt d el + gap) rest

/-- `distributeElements`: no-op for fewer than three ids; otherwise
sort the selection along the axis, save history, and reposition via
`updateElements`. -/
def distributeElements (ids : List String) (d : Direction) (s : DesignerState) :
    DesignerState :=
  if ids.length < 3 then s
  else
    match selectionSorted ids d s with
    | [] => s
    | first :: rest =>
      updateElements
        (distAssign d (distGap d (first :: rest)) (axisPos d first) (first :: rest))
        (saveToHistory s)

/-- Specification helper: sum of the extents of the first `j` sorted
selected elements. -/
def extSum (d : Direction) (sel : List CanvasElement) (j : Nat) : ℚ :=
  ((sel.take j).map (axisExt d)).sum

/-- Specification helper: the position assigned to the j-th element of
the sorted selection — first position plus the extents of the previous
elements plus `j` gaps. -/
def distPos (d : Direction) (sel : List CanvasElement) (gap : ℚ) (j : Nat) : ℚ :=
  (match sel.head? with
   | none => 0
   | some first => axisPos d first) + extSum d sel j + (j : ℚ) * gap

/-! Concrete fixtures used by counterexamples and witnesses. -/

/-- A plain rectangle element at the origin. -/
def baseEl : CanvasElement :=
  { id := "A", type := "rect", x := 0, y := 0, width := 10, height := 10,
    rotation := 0, z := 0 }

/-- The store's initial state: no elements, no selection, empty history. -/
def emptyState : DesignerState :=
  { elements := [], selectedIds := [],
    history := { past := [], future := [] }, isDirty := false }

/-- A document whose single element carries z = 5 (reachable via
`loadElements` or earlier z-order operations). -/
def zFiveState : DesignerState :=
  { elements := [{ baseEl with z := 5 }], selectedIds := [],
    history := { past := [], future := [] }, isDirty := false }

/-- Three elements with pairwise-distinct z values 0, 1/2, 1 (fractional
z values arise from earlier forward/backward operations). -/
def zHalfState : DesignerState :=
  { elements := [baseEl,
                 { baseEl with id := "B", z := 1/2 },
                 { baseEl with id := "C", z := 1 }],
    selectedIds := [],
    history := { past := [], future := [] }, isDirty := false }

/-- A state with one element and one past snapshot (the empty document),
as after a single `removeElement`-style mutation. -/
def pastState : DesignerState :=
  { elements := [baseEl], selectedIds := [],
    history := { past := [[]], future := [] }, isDirty := true }

/-- An element of an unrecognized type that declares a data binding. -/
def unknownBound : CanvasElement :=
  { baseEl with id := "U", type := "custom", dataBinding := some "cond" }

/-- A text element that declares a data binding. -/
def textBound : CanvasElement :=
  { baseEl with id := "T", type := "text", dataBinding := some "cond" }

/-- A hidden element of an unrecognized type. -/
def hiddenUnknown : CanvasElement :=
  { baseEl with id := "H", type := "widget", hidden := true }

/-- A visible element of an unrecognized type. -/
def visibleUnknown : CanvasElement :=
  { baseEl with id := "V", type := "widget" }

/-- An hline element with fill character `=` and width 2. -/
def hlineEl : CanvasElement :=
  { baseEl with id := "HL", type := "hline", content := "=", width := 2 }

/-- The default A4 canvas configuration of the store. -/
def cfgA4 : CanvasConfig :=
  { kind := "pdf", width := 210, height := 297, unit := "mm", scale := 1,
    gridSize := 5, showGrid := true, showRulers := true, snapEnabled := true,
    snapToGrid := true, snapToGuides := true, snapToElements := true }

/-- Three 10mm-wide elements at x = 0, 30, 100 (the spec's asymmetric
distribution example: the middle one must move to x = 50). -/
def distState : DesignerState :=
  { elements := [baseEl,
                 { baseEl with id := "B", x := 30 },
                 { baseEl with id := "C", x := 100 }],
    selectedIds := ["A", "B", "C"],
    history := { past := [], future := [] }, isDirty := false }

/-! Supporting lemmas about the scan and the sort. -/

/-- A successful match concatenates back to the input, and the remaining
input is strictly shorter (by at least the five matched characters). -/
theorem matchHbs_sound (cs : List Char) (p : List Char × List Char)
    (h : matchHbs cs = some p) :
    p.1 ++ p.2 = cs ∧ p.2.length < cs.length := by
  rcases cs with _ | ⟨c1, _ | ⟨c2, rest⟩⟩
  · simp [matchHbs] at h
  · simp [matchHbs] at h
  · have hsplit := List.takeWhile_append_dropWhile (fun c => decide (c ≠ '\x7d')) rest
    rw [matchHbs] at h
    generalize htw : List.takeWhile (fun c => decide (c ≠ '\x7d')) rest = tw at h hsplit
    generalize hdw : List.dropWhile (fun c => decide (c ≠ '\x7d')) rest = dw at h hsplit
    have hlen := congrArg List.length hsplit
    split at h
    · split at h
      · exact absurd h (by simp)
      · split at h
        · split at h
          · split at h
            · rw [Option.some_inj] at h
              subst h
              refine ⟨?_, ?_⟩
              · rw [← hsplit]
                simp
              · simp only [List.length_append, List.length_cons] at hlen ⊢
                omega
            · rw [Option.some_inj] at h
              subst h
              refine ⟨?_, ?_⟩
              · rw [← hsplit]
                simp
              · simp only [List.length_append, List.length_cons] at hlen ⊢
                omega
          · exact absurd h (by simp)
        · split at h
          · rw [Option.some_inj] at h
            subst h
            refine ⟨?_, ?_⟩
            · rw [← hsplit]
              simp
            · simp only [List.length_append, List.length_cons] at hlen ⊢
              omega
          · exact absurd h (by simp)
        · exact absurd h (by simp)
    · exact absurd h (by simp)

/-- Prepending a literal character prepends it to the flattened span
values. -/
theorem consLit_value_flatten (c : Char) (ps : List TemplatePart) :
    ((consLit c ps).map TemplatePart.value).flatten
      = c :: (ps.map TemplatePart.value).flatten := by
  rcases ps with _ | ⟨⟨k, v⟩, rest⟩
  · rfl
  · cases k <;> simp [consLit]

/-- With sufficient fuel, the scanned spans concatenate back to the
input. -/
theorem scanAux_value_flatten (fuel : Nat) :
    ∀ cs : List Char, cs.length ≤ fuel →
      ((scanAux fuel cs).map TemplatePart.value).flatten = cs := by
  induction fuel with
  | zero =>
    intro cs hlen
    have : cs = [] := List.eq_nil_of_length_eq_zero (Nat.le_zero.mp hlen)
    subst this
    rfl
  | succ fuel ih =>
    intro cs hlen
    cases hm : matchHbs cs with
    | some m =>
      obtain ⟨hcat, hlt⟩ := matchHbs_sound cs m hm
      have hnext : m.2.length ≤ fuel := by omega
      simp only [scanAux, hm, List.map_cons, List.flatten_cons, ih m.2 hnext]
      exact hcat
    | none =>
      cases cs with
      | nil => rfl
      | cons c rest =>
        have hrest : rest.length ≤ fuel := by
          simp only [List.length_cons] at hlen
          omega
        simp only [scanAux, hm, consLit_value_flatten, ih rest hrest]

/-- The scanned spans of a string partition it exactly. -/
theorem scanParts_value_flatten (cs : List Char) :
    ((scanParts cs).map TemplatePart.value).flatten = cs :=
  scanAux_value_flatten cs.length cs (Nat.le_refl _)

/-- `repl` distributes over append. -/
theorem repl_append (c : Char) (rep : List Char) (a b : List Char) :
    repl c rep (a ++ b) = repl c rep a ++ repl c rep b := by
  induction a with
  | nil => rfl
  | cons x xs ih => simp [repl, ih]

/-- The replacement chain acts on a single character exactly as
`escChar`. -/
theorem escChar_chain (x : Char) :
    repl '\x22' "&quot;".data (repl '>' "&gt;".data (repl '<' "&lt;".data
      (if x = '&' then "&amp;".data else [x]))) = escChar x := by
  by_cases h1 : x = '&'
  · subst h1; decide
  · by_cases h2 : x = '<'
    · subst h2; decide
    · by_cases h3 : x = '>'
      · subst h3; decide
      · by_cases h4 : x = '\x22'
        · subst h4; decide
        · simp [repl, escChar, h1, h2, h3, h4]

/-- Unfolding of `escapeLiteral` over a leading character. -/
theorem escapeLiteral_cons (x : Char) (xs : List Char) :
    escapeLiteral (x :: xs) = escChar x ++ escapeLiteral xs := by
  have hstep : escapeLiteral (x :: xs)
      = repl '\x22' "&quot;".data (repl '>' "&gt;".data (repl '<' "&lt;".data
          ((if x = '&' then "&amp;".data else [x])
            ++ repl '&' "&amp;".data xs))) := rfl
  rw [hstep, repl_append, repl_append, repl_append, escChar_chain]
  rfl

/-- The four chained global replacements equal the per-character
escaping map. -/
theorem escapeLiteral_eq_escChar (cs : List Char) :
    escapeLiteral cs = (cs.map escChar).flatten := by
  induction cs with
  | nil => rfl
  | cons x xs ih => rw [escapeLiteral_cons, ih]; rfl

/-! Claim C1. -/

/-- C1 (code bug evaluation): starting from the empty document,
`addElement` pushes the *post*-mutation snapshot (it calls
`saveToHistory` after its `set`, unlike `removeElement` /
`removeElements` / `duplicateElements`), so the immediately following
`undo` leaves the freshly added element in place instead of restoring
the original (empty) element list. -/
theorem c1_addElement_undo_code_bug :
    (undo (addElement "e1" baseEl emptyState).1).elements
      = (addElement "e1" baseEl emptyState).1.elements ∧
    (addElement "e1" baseEl emptyState).1.elements ≠ emptyState.elements := by
  decide

/-! Claim C2. -/

/-- C2 (code bug evaluation): on pairwise-distinct z values 0, 1/2, 1,
one `sendBackward` on "C" sets its z to 1/2 - 0.5 = 0, colliding with
"A".  The source subtracts the constant 0.5 from the immediate
neighbour's z instead of taking the midpoint between the two
neighbours (which would give 1/4 here), so pairwise distinctness is not
preserved and the moved element does not land strictly between its
former neighbours. -/
theorem c2_sendBackward_collision_code_bug :
    (zHalfState.elements.map (fun el => el.z)).Nodup ∧
    ((sendBackward "C" zHalfState).elements.map (fun el => el.z)) = [0, 1/2, 0] ∧
    ¬ ((sendBackward "C" zHalfState).elements.map (fun el => el.z)).Nodup := by
  have h1 : sendBackward "C" zHalfState =
      { elements := [baseEl,
                     { baseEl with id := "B", z := 1/2 },
                     { baseEl with id := "C", z := 0 }],
        selectedIds := [],
        history := { past := [], future := [] }, isDirty := true } := by
    rw [sendBackward]
    split
    case _ heq =>
      rw [show zHalfState.elements.find? (fun el => el.id = "C")
            = some { baseEl with id := "C", z := 1 } from by
          simp [List.find?, zHalfState, baseEl]] at heq
      exact absurd heq (by simp)
    case _ element heq =>
      rw [show zHalfState.elements.find? (fun el => el.id = "C")
            = some { baseEl with id := "C", z := 1 } from by
          simp [List.find?, zHalfState, baseEl]] at heq
      rw [Option.some_inj] at heq
      subst heq
      split
      case _ heq2 =>
        rw [show (sortAsc (fun el => -el.z)
              (zHalfState.elements.filter
                (fun el => el.z < ({ baseEl with id := "C", z := 1 } : CanvasElement).z))).head?
              = some { baseEl with id := "B", z := 1/2 } from by
            norm_num [sortAsc, insertAsc, List.filter, zHalfState, baseEl]] at heq2
        exact absurd heq2 (by simp)
      case _ prev heq2 =>
        rw [show (sortAsc (fun el => -el.z)
              (zHalfState.elements.filter
                (fun el => el.z < ({ baseEl with id := "C", z := 1 } : CanvasElement).z))).head?
              = some { baseEl with id := "B", z := 1/2 } from by
            norm_num [sortAsc, insertAsc, List.filter, zHalfState, baseEl]] at heq2
        rw [Option.some_inj] at heq2
        subst heq2
        simp [zHalfState, baseEl]
  refine ⟨?_, ?_, ?_⟩
  · simp [zHalfState, baseEl]
  · rw [h1]
    simp [baseEl]
  · rw [h1]
    simp [baseEl]

/-! Claim C3. -/

/-- C3 counterexample: on a document whose single element has z = 5,
`addElement` assigns the new element z = `elements.length` = 1, which is
not strictly greater than the existing maximum z. -/
theorem c3_counterexample :
    ((addElement "n1" baseEl zFiveState).1.elements.getLast?.map
        (fun el => el.z)) = some 1 ∧
    (5 : ℚ) ∈ zFiveState.elements.map (fun el => el.z) ∧
    ¬ ((1 : ℚ) > 5) := by
  decide

/-- C3 (amended): `addElement` assigns the new element a fresh id (the
uuid, assumed distinct from every existing id) and z equal to the
number of existing elements, appends it, sets the selection to exactly
the new id, and returns the new id. -/
theorem c3_addElement_amended (s : DesignerState) (data : CanvasElement)
    (newId : String) (h : newId ∉ s.elements.map (fun el => el.id)) :
    (addElement newId data s).2 = newId ∧
    (addElement newId data s).1.elements
      = s.elements ++ [{ data with id := newId, z := (s.elements.length : ℚ) }] ∧
    (addElement newId data s).1.selectedIds = [newId] ∧
    ∀ old ∈ s.elements, old.id ≠ newId := by
  refine ⟨rfl, rfl, rfl, ?_⟩
  intro old hold heq
  have hm : old.id ∈ s.elements.map (fun el => el.id) :=
    List.mem_map_of_mem _ hold
  rw [heq] at hm
  exact h hm

/-- Witness for C3 at the empty document and fresh id "n1". -/
theorem c3_witness :
    ("n1" ∉ emptyState.elements.map (fun el => el.id)) ∧
    ((addElement "n1" baseEl emptyState).2 = "n1" ∧
     (addElement "n1" baseEl emptyState).1.elements
       = emptyState.elements
           ++ [{ baseEl with id := "n1", z := (emptyState.elements.length : ℚ) }] ∧
     (addElement "n1" baseEl emptyState).1.selectedIds = ["n1"] ∧
     ∀ old ∈ emptyState.elements, old.id ≠ "n1") :=
  ⟨by decide, c3_addElement_amended emptyState baseEl "n1" (by decide)⟩

/-! Claim C10. -/

/-- The z-order actions call `set` without `saveToHistory`. -/
theorem bringToFront_history (id : String) (s : DesignerState) :
    (bringToFront id s).history = s.history := by
  unfold bringToFront
  split <;> rfl

theorem sendToBack_history (id : String) (s : DesignerState) :
    (sendToBack id s).history = s.history := by
  unfold sendToBack
  split <;> rfl

theorem bringForward_history (id : String) (s : DesignerState) :
    (bringForward id s).history = s.history := by
  unfold bringForward
  split
  · rfl
  · split <;> rfl

theorem sendBackward_history (id : String) (s : DesignerState) :
    (sendBackward id s).history = s.history := by
  unfold sendBackward
  split
  · rfl
  · split <;> rfl

/-- Two states with the same (non-empty-past) history produce the same
elements under `undo`: `undo` installs the popped snapshot. -/
theorem undo_elements_congr (s t : DesignerState) (hh : t.history = s.history)
    (hp : s.history.past ≠ []) : (undo t).elements = (undo s).elements := by
  unfold undo
  rw [hh]
  cases hg : s.history.past.getLast? with
  | none => exact absurd (List.getLast?_eq_none_iff.mp hg) hp
  | some prev => simp only [hg]

/-- C10: each of the four z-order operations leaves `history.past` and
`history.future` unchanged (no history entry is pushed), and therefore
an `undo` right after such an operation yields the same elements as an
`undo` without it — it installs the older snapshot rather than
reverting the z change. -/
theorem c10_zorder_history (s : DesignerState) (id : String)
    (h : s.history.past ≠ []) :
    (bringToFront id s).history = s.history ∧
    (sendToBack id s).history = s.history ∧
    (bringForward id s).history = s.history ∧
    (sendBackward id s).history = s.history ∧
    (undo (bringToFront id s)).elements = (undo s).elements ∧
    (undo (sendToBack id s)).elements = (undo s).elements ∧
    (undo (bringForward id s)).elements = (undo s).elements ∧
    (undo (sendBackward id s)).elements = (undo s).elements :=
  ⟨bringToFront_history id s, sendToBack_history id s,
   bringForward_history id s, sendBackward_history id s,
   undo_elements_congr s _ (bringToFront_history id s) h,
   undo_elements_congr s _ (sendToBack_history id s) h,
   undo_elements_congr s _ (bringForward_history id s) h,
   undo_elements_congr s _ (sendBackward_history id s) h⟩

/-- Witness for C10 on a state with a single past snapshot. -/
theorem c10_witness :
    (pastState.history.past ≠ []) ∧
    ((bringToFront "A" pastState).history = pastState.history ∧
     (sendToBack "A" pastState).history = pastState.history ∧
     (bringForward "A" pastState).history = pastState.history ∧
     (sendBackward "A" pastState).history = pastState.history ∧
     (undo (bringToFront "A" pastState)).elements = (undo pastState).elements ∧
     (undo (sendToBack "A" pastState)).elements = (undo pastState).elements ∧
     (undo (bringForward "A" pastState)).elements = (undo pastState).elements ∧
     (undo (sendBackward "A" pastState)).elements = (undo pastState).elements) :=
  ⟨by decide, c10_zorder_history pastState "A" (by decide)⟩

/-! Sorting lemmas for the compiler pipeline and the distribution. -/

/-- Insertion produces a permutation of consing. -/
theorem insertAsc_perm (key : CanvasElement → ℚ) (e : CanvasElement)
    (l : List CanvasElement) : (insertAsc key e l).Perm (e :: l) := by
  induction l with
  | nil => exact List.Perm.refl _
  | cons f rest ih =>
    simp only [insertAsc]
    split
    · exact (ih.cons f).trans (List.Perm.swap e f rest)
    · exact List.Perm.refl _

/-- The insertion sort permutes its input. -/
theorem sortAsc_perm (key : CanvasElement → ℚ) (l : List CanvasElement) :
    (sortAsc key l).Perm l := by
  induction l with
  | nil => exact List.Perm.refl _
  | cons e rest ih =>
    exact (insertAsc_perm key e (sortAsc key rest)).trans (ih.cons e)

/-- Insertion preserves key-sortedness. -/
theorem insertAsc_pairwise (key : CanvasElement → ℚ) (e : CanvasElement)
    (l : List CanvasElement) (hl : l.Pairwise (fun a b => key a ≤ key b)) :
    (insertAsc key e l).Pairwise (fun a b => key a ≤ key b) := by
  induction l with
  | nil => simp [insertAsc]
  | cons f rest ih =>
    rw [List.pairwise_cons] at hl
    obtain ⟨hf, hrest⟩ := hl
    simp only [insertAsc]
    split
    case isTrue h =>
      rw [List.pairwise_cons]
      refine ⟨?_, ih hrest⟩
      intro b hb
      rcases List.mem_cons.mp ((insertAsc_perm key e rest).mem_iff.mp hb) with rfl | hbr
      · exact h
      · exact hf b hbr
    case isFalse h =>
      rw [List.pairwise_cons]
      refine ⟨?_, List.pairwise_cons.mpr ⟨hf, hrest⟩⟩
      intro b hb
      rcases List.mem_cons.mp hb with rfl | hbr
      · exact le_of_not_le h
      · exact le_trans (le_of_not_le h) (hf b hbr)

/-- The insertion sort sorts by its key. -/
theorem sortAsc_pairwise (key : CanvasElement → ℚ) (l : List CanvasElement) :
    (sortAsc key l).Pairwise (fun a b => key a ≤ key b) := by
  induction l with
  | nil => simp [sortAsc]
  | cons e rest ih => exact insertAsc_pairwise key e _ ih

/-! Claim C4. -/

/-- C4: the compiled output is built from exactly the non-hidden
elements (no hidden element contributes a fragment), and the fragments
are emitted in ascending z order: the compiler's working list is a
permutation of the non-hidden elements, its z values are sorted
ascending, and the output string is the page wrapper around the
newline-joined fragments of that list in that order. -/
theorem c4_hidden_excluded_z_sorted (elements : List CanvasElement)
    (config : CanvasConfig) :
    (∀ e ∈ visibleSorted elements, e.hidden = false) ∧
    ((visibleSorted elements).map (fun el => el.z)).Sorted (· ≤ ·) ∧
    (visibleSorted elements).Perm (elements.filter (fun el => !el.hidden)) ∧
    (compileToPdfHtml elements config).handlebars
      = "<div class=\"rprint-page\" style=\"position:relative;width:"
          ++ qToString config.width ++ "mm;height:" ++ qToString config.height
          ++ "mm;overflow:hidden;\">\n"
          ++ String.intercalate "\n"
              ((visibleSorted elements).map (fun el => (compileElement el).1))
          ++ "\n</div>" := by
  refine ⟨?_, ?_, ?_, rfl⟩
  · intro e he
    unfold visibleSorted at he
    have hmem :=
      (sortAsc_perm (fun el => el.z)
        (elements.filter (fun el => !el.hidden))).mem_iff.mp he
    have := List.of_mem_filter hmem
    simpa using this
  · unfold visibleSorted
    rw [List.Sorted, List.pairwise_map]
    exact sortAsc_pairwise (fun el => el.z) (elements.filter (fun el => !el.hidden))
  · unfold visibleSorted
    exact sortAsc_perm _ _

/-! Claim C5. -/

/-- C5: the expression-preserving transform partitions the input into
spans that concatenate back to it in order, emits expression spans
byte-for-byte and literal spans with `& < > "` escaped per character,
and on "Hello \x7b\x7bname\x7d\x7d & co" produces
"Hello \x7b\x7bname\x7d\x7d &amp; co". -/
theorem c5_escape_expression_spans (text : String) :
    ((scanParts text.data).map TemplatePart.value).flatten = text.data ∧
    escapeHtml text
      = String.mk (((scanParts text.data).map (fun p =>
          match p.kind with
          | PartKind.hbs => p.value
          | PartKind.text => (p.value.map escChar).flatten)).flatten) ∧
    escapeHtml "Hello \x7b\x7bname\x7d\x7d & co"
      = "Hello \x7b\x7bname\x7d\x7d &amp; co" := by
  refine ⟨scanParts_value_flatten text.data, ?_, ?_⟩
  · unfold escapeHtml
    rw [show renderPart = (fun p =>
        match p.kind with
        | PartKind.hbs => p.value
        | PartKind.text => (p.value.map escChar).flatten) from
      funext (fun p => by
        rcases p with ⟨k, v⟩
        cases k
        · exact escapeLiteral_eq_escChar v
        · rfl)]
  · decide

/-! Claim C6. -/

/-- On a recognized element type, `compileElement` is the conditional
wrap of the raw per-type fragment, with the same warnings. -/
theorem compileElement_eq_wrap (e : CanvasElement)
    (h : e.type ∈ recognizedTypes) :
    compileElement e
      = (wrapWithCondition e (compileElementBody e).1,
         (compileElementBody e).2) := by
  simp only [recognizedTypes, List.mem_cons, List.not_mem_nil, or_false] at h
  rcases h with h | h | h | h | h | h | h <;>
    simp [compileElement, compileElementBody, h]

/-- C6 counterexample: an element of an unrecognized type that declares
`dataBinding = "cond"` compiles to the bare comment fragment; it is not
wrapped in a conditional block referencing the expression. -/
theorem c6_counterexample :
    (compileElement unknownBound).1 = "<!-- Unknown element type: custom -->" ∧
    ¬ ∃ inner : String,
        (compileElement unknownBound).1
          = "\x7b\x7b#if cond\x7d\x7d\n" ++ inner ++ "\n\x7b\x7b/if\x7d\x7d" := by
  have hfrag : (compileElement unknownBound).1
      = "<!-- Unknown element type: custom -->" := by decide
  refine ⟨hfrag, ?_⟩
  rintro ⟨inner, hin⟩
  rw [hfrag] at hin
  have hd := congrArg String.data hin
  rw [String.data_append, String.data_append, List.append_assoc] at hd
  have ht := congrArg (List.take 1) hd
  rw [List.take_append_of_le_length (by decide)] at ht
  exact absurd ht (by decide)

/-- C6 (amended): every element of a *recognized* type that declares a
non-empty `visibleIf`/`dataBinding` expression compiles to its raw
fragment wrapped in a Handlebars conditional referencing the expression
verbatim; an element without such an expression is emitted unwrapped
(unrecognized-type elements are emitted unwrapped in either case). -/
theorem c6_condition_wrap_amended (e : CanvasElement) :
    (∀ c : String, e.dataBinding = some c → c ≠ "" →
      e.type ∈ recognizedTypes →
      (compileElement e).1
        = "\x7b\x7b#if " ++ c ++ "\x7d\x7d\n" ++ (compileElementBody e).1
            ++ "\n\x7b\x7b/if\x7d\x7d") ∧
    (e.dataBinding = none →
      (compileElement e).1 = (compileElementBody e).1) := by
  constructor
  · intro c hdb hc hrec
    rw [compileElement_eq_wrap e hrec]
    simp [wrapWithCondition, hdb, hc]
  · intro hdb
    by_cases hrec : e.type ∈ recognizedTypes
    · rw [compileElement_eq_wrap e hrec]
      simp [wrapWithCondition, hdb]
    · have h1 : e.type ≠ "text" := fun hx => hrec (by rw [hx]; decide)
      have h2 : e.type ≠ "rect" := fun hx => hrec (by rw [hx]; decide)
      have h3 : e.type ≠ "line" := fun hx => hrec (by rw [hx]; decide)
      have h4 : e.type ≠ "image" := fun hx => hrec (by rw [hx]; decide)
      have h5 : e.type ≠ "barcode" := fun hx => hrec (by rw [hx]; decide)
      have h6 : e.type ≠ "qrcode" := fun hx => hrec (by rw [hx]; decide)
      have h7 : e.type ≠ "hline" := fun hx => hrec (by rw [hx]; decide)
      simp [compileElement, compileElementBody, h1, h2, h3, h4, h5, h6, h7]

/-- Witness for C6 on a text element bound to "cond". -/
theorem c6_witness :
    (textBound.dataBinding = some "cond" ∧ ("cond" : String) ≠ "" ∧
     textBound.type ∈ recognizedTypes) ∧
    (compileElement textBound).1
      = "\x7b\x7b#if " ++ "cond" ++ "\x7d\x7d\n" ++ (compileElementBody textBound).1
          ++ "\n\x7b\x7b/if\x7d\x7d" :=
  ⟨⟨rfl, by decide, by decide⟩,
   (c6_condition_wrap_amended textBound).1 "cond" rfl (by decide) (by decide)⟩

/-! Claim C8. -/

/-- C8 counterexample: a *hidden* element of an unrecognized type is
filtered out before dispatch, so it contributes no warning at all (and
no fragment): the claim's "exactly one warning" fails on such a list. -/
theorem c8_counterexample :
    hiddenUnknown.type ∉ recognizedTypes ∧
    hiddenUnknown ∈ [hiddenUnknown] ∧
    (compileToPdfHtml [hiddenUnknown] cfgA4).warnings = [] := by
  refine ⟨by decide, by decide, by decide⟩

/-- C8 (amended): for every *non-hidden* element of an unrecognized
type in the list, compilation still returns a result in which that
element contributes exactly one warning — code `UNKNOWN_ELEMENT_TYPE`
with its id — and its fragment among the emitted fragments is the inert
comment. -/
theorem c8_unknown_type_amended (elements : List CanvasElement)
    (config : CanvasConfig) (e : CanvasElement) (hmem : e ∈ elements)
    (hh : e.hidden = false) (ht : e.type ∉ recognizedTypes) :
    compileElement e
      = ("<!-- Unknown element type: " ++ e.type ++ " -->",
         [{ code := "UNKNOWN_ELEMENT_TYPE",
            message := "Unknown element type: " ++ e.type,
            elementId := some e.id }]) ∧
    ({ code := "UNKNOWN_ELEMENT_TYPE",
       message := "Unknown element type: " ++ e.type,
       elementId := some e.id } : CompileWarning)
        ∈ (compileToPdfHtml elements config).warnings ∧
    ("<!-- Unknown element type: " ++ e.type ++ " -->")
        ∈ (visibleSorted elements).map (fun el => (compileElement el).1) := by
  have h1 : e.type ≠ "text" := fun hx => ht (by rw [hx]; decide)
  have h2 : e.type ≠ "rect" := fun hx => ht (by rw [hx]; decide)
  have h3 : e.type ≠ "line" := fun hx => ht (by rw [hx]; decide)
  have h4 : e.type ≠ "image" := fun hx => ht (by rw [hx]; decide)
  have h5 : e.type ≠ "barcode" := fun hx => ht (by rw [hx]; decide)
  have h6 : e.type ≠ "qrcode" := fun hx => ht (by rw [hx]; decide)
  have h7 : e.type ≠ "hline" := fun hx => ht (by rw [hx]; decide)
  have hce : compileElement e
      = ("<!-- Unknown element type: " ++ e.type ++ " -->",
         [{ code := "UNKNOWN_ELEMENT_TYPE",
            message := "Unknown element type: " ++ e.type,
            elementId := some e.id }]) := by
    simp [compileElement, h1, h2, h3, h4, h5, h6, h7]
  have hv : e ∈ visibleSorted elements := by
    unfold visibleSorted
    exact (sortAsc_perm _ _).mem_iff.mpr
      (List.mem_filter.mpr ⟨hmem, by simp [hh]⟩)
  refine ⟨hce, ?_, ?_⟩
  · show _ ∈ ((visibleSorted elements).map (fun el => (compileElement el).2)).flatten
    refine List.mem_flatten.mpr
      ⟨(compileElement e).2, List.mem_map_of_mem _ hv, ?_⟩
    rw [hce]
    simp
  · refine List.mem_map.mpr ⟨e, hv, ?_⟩
    rw [hce]

/-- Witness for C8 on a single-element list. -/
theorem c8_witness :
    (visibleUnknown ∈ [visibleUnknown] ∧ visibleUnknown.hidden = false ∧
     visibleUnknown.type ∉ recognizedTypes) ∧
    (compileElement visibleUnknown
       = ("<!-- Unknown element type: " ++ visibleUnknown.type ++ " -->",
          [{ code := "UNKNOWN_ELEMENT_TYPE",
             message := "Unknown element type: " ++ visibleUnknown.type,
             elementId := some visibleUnknown.id }]) ∧
     ({ code := "UNKNOWN_ELEMENT_TYPE",
        message := "Unknown element type: " ++ visibleUnknown.type,
        elementId := some visibleUnknown.id } : CompileWarning)
         ∈ (compileToPdfHtml [visibleUnknown] cfgA4).warnings ∧
     ("<!-- Unknown element type: " ++ visibleUnknown.type ++ " -->")
         ∈ (visibleSorted [visibleUnknown]).map (fun el => (compileElement el).1)) :=
  ⟨⟨by decide, rfl, by decide⟩,
   c8_unknown_type_amended [visibleUnknown] cfgA4 visibleUnknown
     (by decide) rfl (by decide)⟩

/-! Claim C9. -/

/-- The hline fragment is the styled div whose text content is a
literal dollar sign followed by the repeated fill character. -/
theorem compileHlineElement_data (e : CanvasElement) (styles : List String) :
    (compileHlineElement e styles).data
      = ("  <div data-id=\"" ++ e.id ++ "\" style=\""
          ++ String.intercalate ";"
            (styles ++ ["display:flex", "align-items:center",
                        "justify-content:center", "overflow:hidden",
                        "font-family:monospace", "letter-spacing:2px",
                        "color:#666"]) ++ "\"").data
        ++ ('>' :: '$' ::
            List.replicate (Int.floor (e.width * 3)).toNat
              (e.content.data.head?.getD '-')
            ++ "</div>".data) := by
  unfold compileHlineElement
  simp only [String.data_append]
  simp [List.append_assoc]

/-- C9: for every hline element (of non-negative width), the text
content of its compiled fragment — the characters between the closing
`>` of the opening tag and `</div>` — is a literal `$` followed by the
fill character repeated `floor(3 * width)` times, where the fill
character is the first character of `content`, or `-` when `content` is
empty. -/
theorem c9_hline_dollar_fill (e : CanvasElement) (ht : e.type = "hline")
    (hw : 0 ≤ e.width) :
    (∃ pre post : List Char,
      (compileElement e).1.data
        = pre ++ ('>' :: '$' ::
            List.replicate (Int.floor (3 * e.width)).toNat
              (e.content.data.head?.getD '-')
            ++ "</div>".data) ++ post) ∧
    (((Int.floor (3 * e.width)).toNat : ℤ) = Int.floor (3 * e.width)) ∧
    (e.content = "" → e.content.data.head?.getD '-' = '-') ∧
    (∀ c rest2, e.content.data = c :: rest2 →
      e.content.data.head?.getD '-' = c) := by
  have hcomm : Int.floor (3 * e.width) = Int.floor (e.width * 3) := by
    rw [mul_comm]
  have hce : compileElement e
      = (wrapWithCondition e (compileHlineElement e (baseStylesOf e)), []) := by
    simp [compileElement, ht]
  refine ⟨?_, ?_, ?_, ?_⟩
  · rw [hcomm, hce]
    rcases hdb : e.dataBinding with _ | c
    · refine ⟨("  <div data-id=\"" ++ e.id ++ "\" style=\""
          ++ String.intercalate ";"
            (baseStylesOf e ++ ["display:flex", "align-items:center",
                        "justify-content:center", "overflow:hidden",
                        "font-family:monospace", "letter-spacing:2px",
                        "color:#666"]) ++ "\"").data, [], ?_⟩
      simp only [wrapWithCondition, hdb, List.append_nil]
      exact compileHlineElement_data e (baseStylesOf e)
    · by_cases hc : c = ""
      · refine ⟨("  <div data-id=\"" ++ e.id ++ "\" style=\""
            ++ String.intercalate ";"
              (baseStylesOf e ++ ["display:flex", "align-items:center",
                          "justify-content:center", "overflow:hidden",
                          "font-family:monospace", "letter-spacing:2px",
                          "color:#666"]) ++ "\"").data, [], ?_⟩
        simp only [wrapWithCondition, hdb, hc, ne_eq, not_true_eq_false,
          if_false, List.append_nil]
        exact compileHlineElement_data e (baseStylesOf e)
      · refine ⟨("\x7b\x7b#if " ++ c ++ "\x7d\x7d\n").data
            ++ ("  <div data-id=\"" ++ e.id ++ "\" style=\""
              ++ String.intercalate ";"
                (baseStylesOf e ++ ["display:flex", "align-items:center",
                            "justify-content:center", "overflow:hidden",
                            "font-family:monospace", "letter-spacing:2px",
                            "color:#666"]) ++ "\"").data,
          ("\n\x7b\x7b/if\x7d\x7d" : String).data, ?_⟩
        simp only [wrapWithCondition, hdb, hc, ne_eq, not_false_eq_true,
          if_true, String.data_append]
        rw [compileHlineElement_data e (baseStylesOf e)]
        simp [List.append_assoc]
  · exact Int.toNat_of_nonneg
      (Int.floor_nonneg.mpr (by positivity))
  · intro hc
    rw [hc]
    rfl
  · intro c rest2 hdata
    rw [hdata]
    rfl

/-- Witness for C9 on the concrete hline element. -/
theorem c9_witness :
    (hlineEl.type = "hline" ∧ (0 : ℚ) ≤ hlineEl.width) ∧
    ((∃ pre post : List Char,
       (compileElement hlineEl).1.data
         = pre ++ ('>' :: '$' ::
             List.replicate (Int.floor (3 * hlineEl.width)).toNat
               (hlineEl.content.data.head?.getD '-')
             ++ "</div>".data) ++ post) ∧
     (((Int.floor (3 * hlineEl.width)).toNat : ℤ)
        = Int.floor (3 * hlineEl.width)) ∧
     (hlineEl.content = "" → hlineEl.content.data.head?.getD '-' = '-') ∧
     (∀ c rest2, hlineEl.content.data = c :: rest2 →
       hlineEl.content.data.head?.getD '-' = c)) :=
  ⟨⟨rfl, by decide⟩, c9_hline_dollar_fill hlineEl rfl (by decide)⟩

/-! Claim C7: supporting lemmas. -/

/-- A left fold of additions is the initial value plus the sum. -/
theorem foldl_add_ext (d : Direction) (a : ℚ) (l : List CanvasElement) :
    List.foldl (fun sum el => sum + axisExt d el) a l
      = a + (l.map (axisExt d)).sum := by
  induction l generalizing a with
  | nil => simp
  | cons el rest ih =>
    rw [List.foldl_cons, ih]
    simp [add_assoc]

/-- The fold behind `lookupPatch` keeps its accumulator when no key
matches. -/
theorem lookupPatch_no_match (us : List (String × ElementPatch)) (i : String)
    (acc : Option ElementPatch) (h : ∀ u ∈ us, u.1 ≠ i) :
    us.foldl (fun acc u => if u.1 = i then some u.2 else acc) acc = acc := by
  induction us generalizing acc with
  | nil => rfl
  | cons u rest ih =>
    rw [List.foldl_cons, if_neg (h u (List.mem_cons_self u rest))]
    exact ih _ (fun v hv => h v (List.mem_cons_of_mem u hv))

/-- The keys of the distribution updates are the selected ids. -/
theorem distAssign_keys (d : Direction) (gap : ℚ) (p : ℚ)
    (sel : List CanvasElement) :
    (distAssign d gap p sel).map Prod.fst = sel.map (fun el => el.id) := by
  induction sel generalizing p with
  | nil => rfl
  | cons el rest ih => simp [distAssign, ih]

/-- Looking an id up in the distribution updates gives the patch at the
id's index in the sorted selection: the first position plus the extents
of the previous elements plus one gap per previous element. -/
theorem lookupPatch_distAssign (d : Direction) (gap : ℚ) (p : ℚ)
    (sel : List CanvasElement)
    (hnd : (sel.map (fun el => el.id)).Nodup) (i : String) :
    lookupPatch (distAssign d gap p sel) i
      = match List.findIdx? (fun el => el.id = i) sel with
        | some j => some (axisPatch d (p + extSum d sel j + (j : ℚ) * gap))
        | none => none := by
  induction sel generalizing p with
  | nil => rfl
  | cons el rest ih =>
    rw [List.map_cons, List.nodup_cons] at hnd
    obtain ⟨hhead, hrest⟩ := hnd
    by_cases hi : el.id = i
    · have hfind : List.findIdx? (fun e2 => e2.id = i) (el :: rest) = some 0 := by
        rw [List.findIdx?_cons]
        simp [hi]
      rw [hfind]
      unfold lookupPatch
      rw [show distAssign d gap p (el :: rest)
            = (el.id, axisPatch d p)
                :: distAssign d gap (p + axisExt d el + gap) rest from rfl]
      rw [List.foldl_cons, if_pos hi]
      rw [lookupPatch_no_match _ i _ ?keys]
      case keys =>
        intro u hu heq2
        have hk : u.1 ∈ (distAssign d gap (p + axisExt d el + gap) rest).map Prod.fst :=
          List.mem_map_of_mem _ hu
        rw [distAssign_keys] at hk
        rw [heq2, ← hi] at hk
        exact hhead hk
      show some (axisPatch d p)
          = some (axisPatch d (p + extSum d (el :: rest) 0 + ((0 : ℕ) : ℚ) * gap))
      have harg : p = p + extSum d (el :: rest) 0 + ((0 : ℕ) : ℚ) * gap := by
        simp [extSum]
      rw [← harg]
    · have hfind : List.findIdx? (fun e2 => e2.id = i) (el :: rest)
          = (List.findIdx? (fun e2 => e2.id = i) rest).map (fun j => j + 1) := by
        rw [List.findIdx?_cons]
        simp [hi]
      rw [hfind]
      unfold lookupPatch
      rw [show distAssign d gap p (el :: rest)
            = (el.id, axisPatch d p)
                :: distAssign d gap (p + axisExt d el + gap) rest from rfl]
      rw [List.foldl_cons, if_neg hi]
      have hrec := ih (p + axisExt d el + gap) hrest
      unfold lookupPatch at hrec
      rw [hrec]
      cases hj : List.findIdx? (fun e2 => e2.id = i) rest with
      | none => rfl
      | some j =>
        have hext : extSum d (el :: rest) (j + 1)
            = axisExt d el + extSum d rest j := by
          simp [extSum, List.take_succ_cons]
        have harg : p + axisExt d el + gap + extSum d rest j + (j : ℚ) * gap
            = p + extSum d (el :: rest) (j + 1) + (((j + 1 : ℕ)) : ℚ) * gap := by
          rw [hext]
          push_cast
          ring
        exact congrArg (fun q => some (axisPatch d q)) harg

/-- The first assigned position is the first element's own position. -/
theorem distPos_zero (d : Direction) (sel : List CanvasElement) (gap : ℚ)
    (f : CanvasElement) (hf : sel.head? = some f) :
    distPos d sel gap 0 = axisPos d f := by
  cases sel with
  | nil => simp at hf
  | cons first rest =>
    rw [List.head?_cons, Option.some_inj] at hf
    subst hf
    simp [distPos, extSum]

/-- Each subsequent assigned position is the previous position plus the
previous element's extent plus the gap. -/
theorem distPos_succ (d : Direction) (sel : List CanvasElement) (gap : ℚ)
    (j : Nat) (e : CanvasElement) (he : sel[j]? = some e) :
    distPos d sel gap (j + 1) = distPos d sel gap j + axisExt d e + gap := by
  unfold distPos extSum
  rw [List.take_succ, he]
  simp only [Option.toList_some, List.map_append, List.sum_append,
    List.map_cons, List.map_nil, List.sum_cons, List.sum_nil]
  push_cast
  ring

/-- Unfolding of `distPos` on a non-empty selection. -/
theorem distPos_cons (d : Direction) (first : CanvasElement)
    (rest : List CanvasElement) (gap : ℚ) (j : Nat) :
    distPos d (first :: rest) gap j
      = axisPos d first + extSum d (first :: rest) j + (j : ℚ) * gap := rfl

/-- Unfolding of `distGap` on a non-empty selection. -/
theorem distGap_cons (d : Direction) (first : CanvasElement)
    (rest : List CanvasElement) :
    distGap d (first :: rest)
      = ((axisPos d ((first :: rest).getLast (List.cons_ne_nil first rest))
          + axisExt d ((first :: rest).getLast (List.cons_ne_nil first rest))
          - axisPos d first)
        - List.foldl (fun sum el => sum + axisExt d el) 0 (first :: rest))
        / (((first :: rest).length : ℚ) - 1) := rfl

/-- The gap is span minus occupied size over count minus one. -/
theorem distGap_formula (d : Direction) (sel : List CanvasElement)
    (f l : CanvasElement) (hf : sel.head? = some f) (hl : sel.getLast? = some l) :
    distGap d sel
      = ((axisPos d l + axisExt d l - axisPos d f)
          - (sel.map (axisExt d)).sum)
        / ((sel.length : ℚ) - 1) := by
  cases sel with
  | nil => simp at hf
  | cons first rest =>
    rw [List.head?_cons, Option.some_inj] at hf
    subst hf
    rw [List.getLast?_eq_getLast _ (List.cons_ne_nil first rest),
      Option.some_inj] at hl
    rw [distGap_cons, foldl_add_ext, hl]
    simp

/-- The last assigned position is the last element's own position. -/
theorem distPos_last (d : Direction) (sel : List CanvasElement)
    (l : CanvasElement) (hl : sel.getLast? = some l) (hlen : 2 ≤ sel.length) :
    distPos d sel (distGap d sel) (sel.length - 1) = axisPos d l := by
  cases sel with
  | nil => simp at hl
  | cons first rest =>
    have hne : (first :: rest) ≠ [] := List.cons_ne_nil first rest
    have hlast : (first :: rest).getLast hne = l := by
      rw [List.getLast?_eq_getLast _ hne, Option.some_inj] at hl
      exact hl
    have hq : ((rest.length + 1 : ℕ) : ℚ) - 1 ≠ 0 := by
      have hr : 1 ≤ rest.length := by
        simp only [List.length_cons] at hlen
        omega
      have : (1 : ℚ) ≤ (rest.length : ℚ) := by exact_mod_cast hr
      push_cast
      linarith
    have htake : (first :: rest).take ((first :: rest).length - 1)
        = (first :: rest).dropLast := (List.dropLast_eq_take _).symm
    have hsum : (((first :: rest).dropLast.map (axisExt d)).sum : ℚ)
        = ((first :: rest).map (axisExt d)).sum - axisExt d l := by
      have hdecomp := List.dropLast_append_getLast hne
      have h2 := congrArg (fun t => ((t.map (axisExt d)).sum : ℚ)) hdecomp
      simp only [List.map_append, List.sum_append, List.map_cons, List.map_nil,
        List.sum_cons, List.sum_nil, hlast] at h2
      simp only [List.map_cons, List.sum_cons]
      linarith [h2]
    rw [distPos_cons]
    unfold extSum
    rw [htake, hsum]
    simp only [List.length_cons]
    rw [show (rest.length + 1 - 1 : ℕ) = rest.length from rfl]
    rw [show ((rest.length : ℕ) : ℚ) = ((rest.length + 1 : ℕ) : ℚ) - 1 by
      push_cast; ring]
    have hgap : (((rest.length + 1 : ℕ) : ℚ) - 1) * distGap d (first :: rest)
        = (axisPos d l + axisExt d l - axisPos d first)
          - ((first :: rest).map (axisExt d)).sum := by
      rw [distGap_formula d (first :: rest) first l (List.head?_cons) hl]
      rw [List.length_cons]
      rw [mul_comm]
      exact div_mul_cancel₀ _ hq
    linarith [hgap]

/-- C7: with at least three distinct selected elements (ids matching at
least three elements of a document with unique ids), `distributeElements`
sorts the selection along the axis and repositions: every element whose
id is the j-th of the sorted selection is moved to the j-th assigned
position, every other element is untouched; the first assigned position
is the first element's own, each subsequent one is the previous plus
the previous extent plus the gap, the gap is
(span - occupied) / (count - 1), and the last assigned position equals
the last element's own position; with fewer than three ids the
operation is a no-op. -/
theorem c7_distribute (s : DesignerState) (ids : List String) (d : Direction)
    (hnd : (s.elements.map (fun el => el.id)).Nodup)
    (hm : 3 ≤ (s.elements.filter (fun el => ids.contains el.id)).length) :
    (∀ ids2 : List String, ids2.length < 3 → distributeElements ids2 d s = s) ∧
    (distributeElements ids d s).elements
      = s.elements.map (fun el =>
          match List.findIdx? (fun e2 => e2.id = el.id) (selectionSorted ids d s) with
          | some j => applyPatch el (axisPatch d
              (distPos d (selectionSorted ids d s)
                (distGap d (selectionSorted ids d s)) j))
          | none => el) ∧
    (∀ f, (selectionSorted ids d s).head? = some f →
      distPos d (selectionSorted ids d s) (distGap d (selectionSorted ids d s)) 0
        = axisPos d f) ∧
    (∀ j e, (selectionSorted ids d s)[j]? = some e →
      distPos d (selectionSorted ids d s) (distGap d (selectionSorted ids d s)) (j + 1)
        = distPos d (selectionSorted ids d s) (distGap d (selectionSorted ids d s)) j
            + axisExt d e + distGap d (selectionSorted ids d s)) ∧
    (∀ f l, (selectionSorted ids d s).head? = some f →
      (selectionSorted ids d s).getLast? = some l →
      distGap d (selectionSorted ids d s)
        = ((axisPos d l + axisExt d l - axisPos d f)
            - ((selectionSorted ids d s).map (axisExt d)).sum)
          / (((selectionSorted ids d s).length : ℚ) - 1)) ∧
    (∀ l, (selectionSorted ids d s).getLast? = some l →
      distPos d (selectionSorted ids d s) (distGap d (selectionSorted ids d s))
        ((selectionSorted ids d s).length - 1) = axisPos d l) := by
  have hmatched_nd :
      ((s.elements.filter (fun el => ids.contains el.id)).map
        (fun el => el.id)).Nodup := by
    have hsub : List.Sublist
        ((s.elements.filter (fun el => ids.contains el.id)).map
          (fun el => el.id))
        (s.elements.map (fun el => el.id)) :=
      (List.filter_sublist _).map _
    exact hsub.nodup hnd
  have hsel_perm : (selectionSorted ids d s).Perm
      (s.elements.filter (fun el => ids.contains el.id)) := by
    unfold selectionSorted
    exact sortAsc_perm _ _
  have hsel_nd : ((selectionSorted ids d s).map (fun el => el.id)).Nodup :=
    (hsel_perm.map (fun el => el.id)).nodup_iff.mpr hmatched_nd
  have hsel3 : 3 ≤ (selectionSorted ids d s).length := by
    rw [hsel_perm.length_eq]
    exact hm
  have hids3 : 3 ≤ ids.length := by
    have hsubset : (s.elements.filter (fun el => ids.contains el.id)).map
        (fun el => el.id) ⊆ ids := by
      intro a ha
      obtain ⟨el, hel, rfl⟩ := List.mem_map.mp ha
      have hp := (List.mem_filter.mp hel).2
      simpa using hp
    have hle := (hmatched_nd.subperm hsubset).length_le
    rw [List.length_map] at hle
    omega
  have hguard : ¬ (ids.length < 3) := by omega
  refine ⟨?_, ?_, ?_, ?_, ?_, ?_⟩
  · intro ids2 h2
    unfold distributeElements
    rw [if_pos h2]
  · unfold distributeElements
    rw [if_neg hguard]
    split
    case _ heq =>
      rw [heq] at hsel3
      simp at hsel3
    case _ first rest heq =>
      rw [heq] at hsel_nd ⊢
      simp only [updateElements, saveToHistory]
      apply List.map_congr_left
      intro el _
      rw [lookupPatch_distAssign d (distGap d (first :: rest)) (axisPos d first)
        (first :: rest) hsel_nd el.id]
      cases hj : List.findIdx? (fun e2 => e2.id = el.id) (first :: rest) with
      | none => rfl
      | some j => rfl
  · intro f hf
    exact distPos_zero d _ _ f hf
  · intro j e he
    exact distPos_succ d _ _ j e he
  · intro f l hf hl
    exact distGap_formula d _ f l hf hl
  · intro l hl
    exact distPos_last d _ l hl (le_trans (by norm_num) hsel3)

/-- Witness for C7 on three 10mm elements at x = 0, 30, 100 distributed
horizontally. -/
theorem c7_witness :
    ((distState.elements.map (fun el => el.id)).Nodup ∧
     3 ≤ (distState.elements.filter
       (fun el => (["A", "B", "C"] : List String).contains el.id)).length) ∧
    ((∀ ids2 : List String, ids2.length < 3 →
        distributeElements ids2 Direction.horizontal distState = distState) ∧
     (distributeElements ["A", "B", "C"] Direction.horizontal distState).elements
       = distState.elements.map (fun el =>
           match List.findIdx? (fun e2 => e2.id = el.id)
               (selectionSorted ["A", "B", "C"] Direction.horizontal distState) with
           | some j => applyPatch el (axisPatch Direction.horizontal
               (distPos Direction.horizontal
                 (selectionSorted ["A", "B", "C"] Direction.horizontal distState)
                 (distGap Direction.horizontal
                   (selectionSorted ["A", "B", "C"] Direction.horizontal distState)) j))
           | none => el) ∧
     (∀ f, (selectionSorted ["A", "B", "C"] Direction.horizontal distState).head?
          = some f →
       distPos Direction.horizontal
         (selectionSorted ["A", "B", "C"] Direction.horizontal distState)
         (distGap Direction.horizontal
           (selectionSorted ["A", "B", "C"] Direction.horizontal distState)) 0
         = axisPos Direction.horizontal f) ∧
     (∀ j e, (selectionSorted ["A", "B", "C"] Direction.horizontal distState)[j]?
          = some e →
       distPos Direction.horizontal
         (selectionSorted ["A", "B", "C"] Direction.horizontal distState)
         (distGap Direction.horizontal
           (selectionSorted ["A", "B", "C"] Direction.horizontal distState)) (j + 1)
         = distPos Direction.horizontal
             (selectionSorted ["A", "B", "C"] Direction.horizontal distState)
             (distGap Direction.horizontal
               (selectionSorted ["A", "B", "C"] Direction.horizontal distState)) j
             + axisExt Direction.horizontal e
             + distGap Direction.horizontal
                 (selectionSorted ["A", "B", "C"] Direction.horizontal distState)) ∧
     (∀ f l, (selectionSorted ["A", "B", "C"] Direction.horizontal distState).head?
          = some f →
       (selectionSorted ["A", "B", "C"] Direction.horizontal distState).getLast?
          = some l →
       distGap Direction.horizontal
         (selectionSorted ["A", "B", "C"] Direction.horizontal distState)
         = ((axisPos Direction.horizontal l + axisExt Direction.horizontal l
              - axisPos Direction.horizontal f)
             - ((selectionSorted ["A", "B", "C"] Direction.horizontal distState).map
                 (axisExt Direction.horizontal)).sum)
           / (((selectionSorted ["A", "B", "C"] Direction.horizontal distState).length : ℚ)
               - 1)) ∧
     (∀ l, (selectionSorted ["A", "B", "C"] Direction.horizontal distState).getLast?
          = some l →
       distPos Direction.horizontal
         (selectionSorted ["A", "B", "C"] Direction.horizontal distState)
         (distGap Direction.horizontal
           (selectionSorted ["A", "B", "C"] Direction.horizontal distState))
         ((selectionSorted ["A", "B", "C"] Direction.horizontal distState).length - 1)
         = axisPos Direction.horizontal l)) :=
  ⟨⟨by decide, by decide⟩,
   c7_distribute distState ["A", "B", "C"] Direction.horizontal
     (by decide) (by decide)⟩

end RPrint
